import Mathlib

/-!
Verification of the grade computation and ranking engine of the riseApp
school-management application (`accounts/models.py` and
`accounts/utils/views.py`), as a shallow embedding: Python floats are
modelled as rationals, Django query sets as explicit lists, and the
database-write paths as pure functions returning the updated record lists.
-/

/-- Python's `round` to an integer: round half to even (banker's rounding),
on the rational value. -/
def roundHalfEven (x : ℚ) : ℤ :=
  let n : ℤ := ⌊x⌋
  let f : ℚ := x - (n : ℚ)
  if f < 1/2 then n
  else if 1/2 < f then n + 1
  else if n % 2 = 0 then n else n + 1

/-- Python's `round(x, 2)`: round to two decimal places. -/
def round2 (x : ℚ) : ℚ := ((roundHalfEven (x * 100) : ℤ) : ℚ) / 100

/-- Python's `x or 0` applied to a nullable score field: absent values count
as zero (both `Result.save` and the nursery/primary sums use this). -/
def orZero (v : Option ℚ) : ℚ := v.getD 0

/-- The raw input fields of a `Result` row (`accounts/models.py`); every
score field is nullable (`null=True`). -/
structure RawScores where
  ca : Option ℚ
  test_1 : Option ℚ
  test_2 : Option ℚ
  exam : Option ℚ
  test : Option ℚ
  homework : Option ℚ
  classwork : Option ℚ
  nursery_primary_exam : Option ℚ
  total_marks : Option ℚ
deriving DecidableEq

/-- The derived fields `Result.save` computes before persisting. -/
structure Graded where
  total_score : ℚ
  grade : String
  grade_point : Option ℚ
  descr : String
deriving DecidableEq

/-- The Nursery band table of `Result.save` (grade_point always absent). -/
def nurseryBands (ts : ℚ) : Graded :=
  if 95 ≤ ts then ⟨ts, "A+", none, "Distinction"⟩
  else if 90 ≤ ts then ⟨ts, "A", none, "Excellent"⟩
  else if 85 ≤ ts then ⟨ts, "B+", none, "Very Good"⟩
  else if 80 ≤ ts then ⟨ts, "B", none, "Good"⟩
  else if 70 ≤ ts then ⟨ts, "C+", none, "Credit"⟩
  else if 65 ≤ ts then ⟨ts, "C", none, "Average"⟩
  else if 60 ≤ ts then ⟨ts, "D", none, "Fair"⟩
  else if 50 ≤ ts then ⟨ts, "E", none, "Pass"⟩
  else ⟨ts, "F9", none, "Fail"⟩

/-- The Primary band table of `Result.save` (identical letters to Nursery). -/
def primaryBands (ts : ℚ) : Graded :=
  if 95 ≤ ts then ⟨ts, "A+", none, "Distinction"⟩
  else if 90 ≤ ts then ⟨ts, "A", none, "Excellent"⟩
  else if 85 ≤ ts then ⟨ts, "B+", none, "Very Good"⟩
  else if 80 ≤ ts then ⟨ts, "B", none, "Good"⟩
  else if 70 ≤ ts then ⟨ts, "C+", none, "Credit"⟩
  else if 65 ≤ ts then ⟨ts, "C", none, "Average"⟩
  else if 60 ≤ ts then ⟨ts, "D", none, "Fair"⟩
  else if 50 ≤ ts then ⟨ts, "E", none, "Pass"⟩
  else ⟨ts, "F9", none, "Fail"⟩

/-- The Junior band table of `Result.save`. -/
def juniorBands (ts : ℚ) : Graded :=
  if 90 ≤ ts then ⟨ts, "A+", some 4, "Distinction"⟩
  else if 80 ≤ ts then ⟨ts, "A", some (7/2), "Excellent"⟩
  else if 70 ≤ ts then ⟨ts, "B", some 3, "Good"⟩
  else if 60 ≤ ts then ⟨ts, "C", some (5/2), "Above Average"⟩
  else if 50 ≤ ts then ⟨ts, "D", some 2, "Average"⟩
  else if 40 ≤ ts then ⟨ts, "E", some (3/2), "Average"⟩
  else ⟨ts, "F", some 1, "Poor"⟩

/-- The band table of the final `else` branch of `Result.save` (the Senior
policy, also reached for any unrecognised or missing section). -/
def seniorBands (ts : ℚ) : Graded :=
  if 90 ≤ ts then ⟨ts, "A1", some 5, "Distinction"⟩
  else if 85 ≤ ts then ⟨ts, "B2", some (9/2), "Excellent"⟩
  else if 80 ≤ ts then ⟨ts, "B3", some 4, "Very Good"⟩
  else if 70 ≤ ts then ⟨ts, "C4", some (7/2), "Good"⟩
  else if 60 ≤ ts then ⟨ts, "C5", some 3, "Above Avg."⟩
  else if 50 ≤ ts then ⟨ts, "C6", some (5/2), "Average"⟩
  else if 45 ≤ ts then ⟨ts, "D7", some 2, "Below Avg."⟩
  else if 40 ≤ ts then ⟨ts, "E8", some (3/2), "Fair"⟩
  else ⟨ts, "F9", some 1, "Fail"⟩

/-- `Result.save` from `accounts/models.py`: `sectionKind` is
`student.current_class.section` when the student has a class, `none`
otherwise; dispatch is by string comparison with a Senior fall-through. -/
def resultSave (sectionKind : Option String) (r : RawScores) : Graded :=
  if sectionKind = some "Nursery" then
    nurseryBands (orZero r.total_marks)
  else if sectionKind = some "Primary" then
    primaryBands (orZero r.test + orZero r.homework + orZero r.classwork +
      orZero r.nursery_primary_exam)
  else if sectionKind = some "Junior" then
    juniorBands (orZero r.ca + orZero r.test_1 + orZero r.test_2 + orZero r.exam)
  else
    seniorBands (orZero r.ca + orZero r.test_1 + orZero r.test_2 + orZero r.exam)

/-- The ordinal suffix computation, as written inline in both ranking passes
of `accounts/utils/views.py` and in `get_ordinal_suffix` of
`accounts/utils/index.py`. -/
def ordinalSuffix (n : ℕ) : String :=
  if 10 ≤ n % 100 ∧ n % 100 ≤ 20 then "th"
  else if n % 10 = 1 then "st"
  else if n % 10 = 2 then "nd"
  else if n % 10 = 3 then "rd"
  else "th"

/-- A rank formatted as the position string the ranking passes store,
`f"{rank}{suffix}"`. -/
def posStr (rank : ℕ) : String := toString rank ++ ordinalSuffix rank

/-- A `Result` row as the ranking passes see it: identifying keys, the two
numeric inputs of the rankings, and the three stored position strings.
(`session` and `term` are fixed throughout one pass and are left implicit:
a record list always stands for one (session, term)'s rows.) -/
structure Rec where
  studentId : ℕ
  subjectId : ℕ
  total_score : ℚ
  grade_point : Option ℚ
  subject_position : String
  class_position : String
  class_position_gp : String
deriving DecidableEq

/-- One step of the stable descending sort: insert `x` in front of the first
element whose key is not larger (so earlier-listed elements stay first on
ties, exactly as Python's stable `sorted(..., reverse=True)`). -/
def insertDesc (key : α → ℚ) (x : α) : List α → List α
  | [] => [x]
  | y :: ys => if key y ≤ key x then x :: y :: ys else y :: insertDesc key x ys

/-- Python's `sorted(l, key=key, reverse=True)`: stable descending sort. -/
def sortDescBy (key : α → ℚ) : List α → List α
  | [] => []
  | x :: xs => insertDesc key x (sortDescBy key xs)

/-- The rank-assignment walk shared by both ranking passes: `idx` is the
1-based position, `prev` the previous comparison key (`None` initially),
`rank` the rank reused on ties. -/
def assignRanksGo (key : α → ℚ) : List α → ℕ → Option ℚ → ℕ → List (α × ℕ)
  | [], _, _, _ => []
  | x :: xs, idx, prev, rank =>
    let r := if some (key x) = prev then rank else idx
    (x, r) :: assignRanksGo key xs (idx + 1) (some (key x)) r

/-- The full walk `for idx, item in enumerate(sorted_seq, 1): ...` with
`prev_score = None` and `rank = 0` initially. -/
def assignRanks (key : α → ℚ) (l : List α) : List (α × ℕ) :=
  assignRanksGo key l 1 none 0

/-- The subject set of `update_subject_positions` / `update_class_positions`:
distinct subjects of the active `StudentSubject` rows (modelled by `enr`,
pairs (studentId, subjectId)) of students in the roster. -/
def subjectIdsOf (roster : List ℕ) (enr : List (ℕ × ℕ)) : List ℕ :=
  ((enr.filter (fun e => decide (e.1 ∈ roster))).map (fun e => e.2)).dedup

/-- `results_by_subject` of `update_subject_positions`: records grouped by
subject id. -/
def groupBySubject (rs : List Rec) : List (ℕ × List Rec) :=
  ((rs.map (fun r => r.subjectId)).dedup).map
    (fun sid => (sid, rs.filter (fun r => decide (r.subjectId = sid))))

/-- The per-subject body of `update_subject_positions`: sort by raw
`total_score` descending, walk with ties compared on `round(·, 2)`, store
the position string. -/
def rankGroup (grp : List Rec) : List Rec :=
  (assignRanks (fun r => round2 r.total_score)
      (sortDescBy (fun r => r.total_score) grp)).map
    (fun p => { p.1 with subject_position := posStr p.2 })

/-- The `position_updates` list of `update_subject_positions`: every record
of a roster student in a subject of the section's enrollment set, with its
new `subject_position`. -/
def subjectUpdates (roster : List ℕ) (enr : List (ℕ × ℕ)) (results : List Rec) :
    List Rec :=
  let sids := subjectIdsOf roster enr
  let rs := results.filter
    (fun r => decide (r.studentId ∈ roster ∧ r.subjectId ∈ sids))
  (groupBySubject rs).flatMap (fun g => rankGroup g.2)

/-- `bulk_update`: each stored row is replaced by its updated object when one
exists (rows are keyed by (student, subject), unique per session/term). -/
def applyUpdates (results updates : List Rec) : List Rec :=
  results.map (fun r =>
    match updates.find?
        (fun u => decide (u.studentId = r.studentId ∧ u.subjectId = r.subjectId)) with
    | some u => u
    | none => r)

/-- `update_subject_positions` of `accounts/utils/views.py`, for one section
roster and one (session, term). -/
def update_subject_positions (roster : List ℕ) (enr : List (ℕ × ℕ))
    (results : List Rec) : List Rec :=
  applyUpdates results (subjectUpdates roster enr results)

/-- The per-student qualifying records of `update_class_positions`: the two
query/list-comprehension filters `student__in ∧ subject__id__in` and
`r.student_id == student.pk and r.total_score > 0`. -/
def qualRecsFor (roster : List ℕ) (enr : List (ℕ × ℕ)) (results : List Rec)
    (st : ℕ) : List Rec :=
  ((results.filter (fun r =>
      decide (r.studentId ∈ roster ∧ r.subjectId ∈ subjectIdsOf roster enr))).filter
    (fun r => decide (r.studentId = st ∧ 0 < r.total_score)))

/-- One entry of the `student_averages` list of `update_class_positions`. -/
structure StudentAvg where
  studentId : ℕ
  avg_marks : ℚ
  avg_gp : ℚ
  recs : List Rec
deriving DecidableEq

/-- The `student_averages` entry for one student: skipped when no qualifying
record exists; `avg_marks` is stored rounded to 2 decimals; `avg_gp` sums the
present grade points but divides by the number of all qualifying records, and
is 0.0 when no grade point is present. -/
def mkAvg (st : ℕ) (srs : List Rec) : Option StudentAvg :=
  if srs.isEmpty then none
  else some
    { studentId := st
      avg_marks := round2 ((srs.map (fun r => r.total_score)).sum / srs.length)
      avg_gp :=
        if srs.any (fun r => r.grade_point.isSome) then
          (srs.filterMap (fun r => r.grade_point)).sum / srs.length
        else 0
      recs := srs }

/-- The `student_averages` list, built in roster order. -/
def studentAverages (roster : List ℕ) (enr : List (ℕ × ℕ))
    (results : List Rec) : List StudentAvg :=
  roster.filterMap (fun st => mkAvg st (qualRecsFor roster enr results st))

/-- The by-`avg_marks` walk of `update_class_positions`, as a map from
student id to the position string written on that student's records. -/
def marksPositions (avgs : List StudentAvg) : List (ℕ × String) :=
  (assignRanks (fun s => s.avg_marks) (sortDescBy (fun s => s.avg_marks) avgs)).map
    (fun p => (p.1.studentId, posStr p.2))

/-- The by-`avg_gp` walk of `update_class_positions` (Junior/Senior only). -/
def gpPositions (avgs : List StudentAvg) : List (ℕ × String) :=
  (assignRanks (fun s => s.avg_gp) (sortDescBy (fun s => s.avg_gp) avgs)).map
    (fun p => (p.1.studentId, posStr p.2))

/-- First-match association lookup. -/
def posLookup : List (ℕ × String) → ℕ → Option String
  | [], _ => none
  | kv :: rest, st => if kv.1 = st then some kv.2 else posLookup rest st

/-- The effect of one `update_class_positions` pass on one stored record: a
record is mutated exactly when it is one of the qualifying records of a
ranked student (it then sits in that student's `s['results']` list), and then
receives the student's by-marks position, plus — outside Nursery/Primary —
the student's by-grade-point position. -/
def applyClassUpdate (sectionKind : String) (roster : List ℕ)
    (enr : List (ℕ × ℕ)) (results : List Rec) (r : Rec) : Rec :=
  if r.studentId ∈ roster ∧ r.subjectId ∈ subjectIdsOf roster enr ∧
      0 < r.total_score then
    let avgs := studentAverages roster enr results
    let r1 := match posLookup (marksPositions avgs) r.studentId with
      | some p => { r with class_position := p }
      | none => r
    if sectionKind = "Nursery" ∨ sectionKind = "Primary" then r1
    else match posLookup (gpPositions avgs) r.studentId with
      | some p => { r1 with class_position_gp := p }
      | none => r1
  else r

/-- `update_class_positions` of `accounts/utils/views.py`: no-op on an empty
roster, otherwise rank and bulk-write the position fields. -/
def update_class_positions (sectionKind : String) (roster : List ℕ)
    (enr : List (ℕ × ℕ)) (results : List Rec) : List Rec :=
  if roster.isEmpty then results
  else results.map (applyClassUpdate sectionKind roster enr results)

/-- `remove_student_from_section` of `accounts/utils/views.py`, for a student
`st` whose current section has member set `roster` (so the guard
`if old_section:` is `st ∈ roster`): blank `subject_position` and
`class_position` (only those two fields) on the student's current-term
records, drop the student from the roster, then re-run Class Ranking for the
old section. -/
def remove_student_from_section (sectionKind : String) (roster : List ℕ)
    (enr : List (ℕ × ℕ)) (st : ℕ) (results : List Rec) : List Rec :=
  if st ∈ roster then
    let cleared := results.map (fun r =>
      if r.studentId = st then
        { r with subject_position := "", class_position := "" }
      else r)
    update_class_positions sectionKind (roster.filter (fun x => decide (x ≠ st)))
      enr cleared
  else results

/-- One subject's submitted fields in an `update_result` POST for a
Junior/Senior student (`ca`, `test_1`, `test_2`, `exam`); `none` models an
empty form field, which is skipped. The `remarks` field, which can also mark
a result updated but carries no score, is orthogonal to range checking and
omitted. -/
structure Submission where
  ca : Option ℚ
  test_1 : Option ℚ
  test_2 : Option ℚ
  exam : Option ℚ
deriving DecidableEq

/-- A stored `Result` row as `update_result` reads and writes it: raw fields
plus the derived fields recomputed by `Result.save`. -/
structure StoredResult where
  subjectId : ℕ
  ca : Option ℚ
  test_1 : Option ℚ
  test_2 : Option ℚ
  exam : Option ℚ
  total_score : ℚ
  grade : String
  grade_point : Option ℚ
  descr : String
deriving DecidableEq

/-- One submitted field of `update_result`: skipped when empty; outside
[0, hi] the whole request raises `ValidationError`; otherwise the stored
value is replaced when it differs, flagging the result updated. -/
def checkField (hi : ℚ) (sub cur : Option ℚ) : Except Unit (Option ℚ × Bool) :=
  match sub with
  | none => Except.ok (cur, false)
  | some v =>
    if 0 ≤ v ∧ v ≤ hi then
      if cur = some v then Except.ok (cur, false) else Except.ok (some v, true)
    else Except.error ()

/-- `Result.save` applied to a stored row (recomputes the derived fields from
the raw ones; the Nursery/Primary-only raw fields are absent on this path). -/
def saveStored (sectionKind : Option String) (r : StoredResult) : StoredResult :=
  let g := resultSave sectionKind
    { ca := r.ca, test_1 := r.test_1, test_2 := r.test_2, exam := r.exam
      test := none, homework := none, classwork := none
      nursery_primary_exam := none, total_marks := none }
  { r with total_score := g.total_score, grade := g.grade
           grade_point := g.grade_point, descr := g.descr }

/-- The per-subject body of the `update_result` POST loop on the
Junior/Senior field path: validate and stage the four fields in order, and
when anything changed call `result.save()`. -/
def processSubject (sectionKind : Option String) (sub : Submission)
    (res : StoredResult) : Except Unit (StoredResult × Bool) := do
  let (ca', u1) ← checkField 10 sub.ca res.ca
  let (t1', u2) ← checkField 10 sub.test_1 res.test_1
  let (t2', u3) ← checkField 10 sub.test_2 res.test_2
  let (ex', u4) ← checkField 70 sub.exam res.exam
  if u1 || u2 || u3 || u4 then
    Except.ok (saveStored sectionKind
      { res with ca := ca', test_1 := t1', test_2 := t2', exam := ex' }, true)
  else
    Except.ok (res, false)

/-- `Result.objects.get(...)` with creation fallback: a fresh row carries the
model defaults (0.0 on each raw score field). -/
def findOrCreate (store : List StoredResult) (sid : ℕ) : StoredResult :=
  match store.find? (fun r => decide (r.subjectId = sid)) with
  | some r => r
  | none =>
    { subjectId := sid, ca := some 0, test_1 := some 0, test_2 := some 0
      exam := some 0, total_score := 0, grade := "", grade_point := none
      descr := "" }

/-- `result.save()` as seen by the database: replace the row with the same
subject, or append a new one. -/
def saveInStore (store : List StoredResult) (r : StoredResult) :
    List StoredResult :=
  if store.any (fun x => decide (x.subjectId = r.subjectId)) then
    store.map (fun x => if x.subjectId = r.subjectId then r else x)
  else store ++ [r]

/-- The outcome of one `update_result` POST: the database rows afterwards,
whether the submission was rejected by a `ValidationError`, and whether the
ranking recomputations (`update_subject_positions` /
`update_class_positions`) were triggered. -/
structure PostOutcome where
  store : List StoredResult
  rejected : Bool
  rankingsRun : Bool
deriving DecidableEq

/-- The `for subject in subjects:` loop of the `update_result` POST handler.
There is no enclosing transaction: each per-subject `result.save()` persists
immediately, and a later `ValidationError` leaves those earlier writes in
place while skipping the ranking recomputation that only runs after the loop
when `updates_made`. -/
def updateResultGo (sectionKind : Option String) :
    List (ℕ × Submission) → List StoredResult → Bool → PostOutcome
  | [], store, updatesMade =>
    { store := store, rejected := false, rankingsRun := updatesMade }
  | (sid, sub) :: rest, store, updatesMade =>
    match processSubject sectionKind sub (findOrCreate store sid) with
    | Except.error _ => { store := store, rejected := true, rankingsRun := false }
    | Except.ok (res', updated) =>
      if updated then updateResultGo sectionKind rest (saveInStore store res') true
      else updateResultGo sectionKind rest store updatesMade

/-- The `update_result` POST handler of `accounts/utils/views.py` (score
part, Junior/Senior field path), over the submissions for the student's
enrolled subjects in form order. -/
def update_result_post (sectionKind : Option String)
    (subs : List (ℕ × Submission)) (store : List StoredResult) : PostOutcome :=
  updateResultGo sectionKind subs store false

/-- Written from the spec's words for claim C9 ("if `rank % 100` is in
[11,20], suffix is 'th'; else suffix depends on `rank % 10`"), to be compared
with the source's `ordinalSuffix`. -/
def specOrdinalSuffix (n : ℕ) : String :=
  if 11 ≤ n % 100 ∧ n % 100 ≤ 20 then "th"
  else if n % 10 = 1 then "st"
  else if n % 10 = 2 then "nd"
  else if n % 10 = 3 then "rd"
  else "th"

/-- Written from the spec's words for claim C5 ("`avg_gp` = mean of
`grade_point` taken over exactly those qualifying records where `grade_point`
is present, 0.0 when none present"), to be compared with the `avg_gp` the
source computes. -/
def specMeanPresentGradePoints (srs : List Rec) : ℚ :=
  let present := srs.filterMap (fun r => r.grade_point)
  if present.isEmpty then 0 else present.sum / present.length

/-! ### Library lemmas about the embedded sorting and ranking machinery -/

theorem mem_insertDesc {key : α → ℚ} {x a : α} :
    ∀ {l : List α}, a ∈ insertDesc key x l ↔ a = x ∨ a ∈ l := by
  intro l
  induction l with
  | nil => simp [insertDesc]
  | cons y ys ih =>
    simp only [insertDesc]
    split_ifs with hc
    · simp [List.mem_cons]
    · simp only [List.mem_cons, ih]
      tauto

theorem insertDesc_perm (key : α → ℚ) (x : α) (l : List α) :
    (insertDesc key x l).Perm (x :: l) := by
  induction l with
  | nil => simp [insertDesc]
  | cons y ys ih =>
    simp only [insertDesc]
    split_ifs with hc
    · exact List.Perm.refl _
    · exact (ih.cons y).trans (List.Perm.swap x y ys)

theorem sortDescBy_perm (key : α → ℚ) (l : List α) :
    (sortDescBy key l).Perm l := by
  induction l with
  | nil => simp [sortDescBy]
  | cons x xs ih =>
    exact (insertDesc_perm key x _).trans (ih.cons x)

theorem pairwise_insertDesc {key : α → ℚ} {x : α} {l : List α}
    (h : l.Pairwise (fun u v => key v ≤ key u)) :
    (insertDesc key x l).Pairwise (fun u v => key v ≤ key u) := by
  induction l with
  | nil => simp [insertDesc]
  | cons y ys ih =>
    rw [List.pairwise_cons] at h
    obtain ⟨hy, hys⟩ := h
    simp only [insertDesc]
    split_ifs with hc
    · rw [List.pairwise_cons]
      refine ⟨?_, by rw [List.pairwise_cons]; exact ⟨hy, hys⟩⟩
      intro z hz
      rcases List.mem_cons.mp hz with rfl | hz
      · exact hc
      · exact (hy z hz).trans hc
    · rw [List.pairwise_cons]
      refine ⟨?_, ih hys⟩
      intro z hz
      rcases mem_insertDesc.mp hz with rfl | hz
      · exact le_of_lt (lt_of_not_le hc)
      · exact hy z hz

theorem sortDescBy_pairwise (key : α → ℚ) (l : List α) :
    (sortDescBy key l).Pairwise (fun u v => key v ≤ key u) := by
  induction l with
  | nil => exact List.Pairwise.nil
  | cons x xs ih => exact pairwise_insertDesc ih

theorem assignRanksGo_map_fst (key : α → ℚ) :
    ∀ (l : List α) (i : ℕ) (p : Option ℚ) (r : ℕ),
      (assignRanksGo key l i p r).map Prod.fst = l := by
  intro l
  induction l with
  | nil => intros; rfl
  | cons x xs ih => intro i p r; simp [assignRanksGo, ih]

theorem assignRanks_map_fst (key : α → ℚ) (l : List α) :
    (assignRanks key l).map Prod.fst = l :=
  assignRanksGo_map_fst key l 1 none 0

theorem assignRanksGo_rank_pos (key : α → ℚ) :
    ∀ (l : List α) (i : ℕ) (p : Option ℚ) (r : ℕ),
      1 ≤ i → (p = none ∨ 1 ≤ r) →
      ∀ q ∈ assignRanksGo key l i p r, 1 ≤ q.2 := by
  intro l
  induction l with
  | nil => intro i p r _ _ q hq; simp [assignRanksGo] at hq
  | cons x xs ih =>
    intro i p r hi hp q hq
    simp only [assignRanksGo, List.mem_cons] at hq
    by_cases hc : some (key x) = p
    · rw [if_pos hc] at hq
      have hr : 1 ≤ r := by
        rcases hp with hp | hp
        · rw [hp] at hc; exact absurd hc (by simp)
        · exact hp
      rcases hq with rfl | hq
      · exact hr
      · exact ih (i + 1) (some (key x)) r (by omega) (Or.inr hr) q hq
    · rw [if_neg hc] at hq
      rcases hq with rfl | hq
      · exact hi
      · exact ih (i + 1) (some (key x)) i (by omega) (Or.inr hi) q hq

theorem assignRanks_rank_pos (key : α → ℚ) (l : List α) :
    ∀ q ∈ assignRanks key l, 1 ≤ q.2 :=
  assignRanksGo_rank_pos key l 1 none 0 le_rfl (Or.inl rfl)

theorem assignRanksGo_spec (key : α → ℚ) :
    ∀ (xs ctx : List α) (p : ℚ),
      xs.Pairwise (fun u v => key v ≤ key u) →
      (∀ a ∈ ctx, p ≤ key a) →
      (∀ b ∈ xs, key b ≤ p) →
      assignRanksGo key xs (ctx.length + 1) (some p)
          (1 + ctx.countP (fun y => decide (p < key y))) =
        xs.map (fun z => (z, 1 + (ctx ++ xs).countP (fun y => decide (key z < key y)))) := by
  intro xs
  induction xs with
  | nil => intro ctx p _ _ _; rfl
  | cons z zs ih =>
    intro ctx p hsorted hctx hxs
    rw [List.pairwise_cons] at hsorted
    obtain ⟨hz_ge, hzs_sorted⟩ := hsorted
    have hz_le_p : key z ≤ p := hxs z (List.mem_cons_self z zs)
    have hcnt_tail : (z :: zs).countP (fun y => decide (key z < key y)) = 0 := by
      rw [List.countP_eq_zero]
      intro a ha
      rcases List.mem_cons.mp ha with rfl | ha
      · simp
      · simp only [decide_eq_true_eq]
        exact not_lt.mpr (hz_ge a ha)
    by_cases hc : key z = p
    · subst hc
      simp only [assignRanksGo, if_true]
      have hctx2 : ∀ a ∈ ctx ++ [z], key z ≤ key a := by
        intro a ha
        rcases List.mem_append.mp ha with ha | ha
        · exact hctx a ha
        · rcases List.mem_singleton.mp ha with rfl; exact le_rfl
      have htail := ih (ctx ++ [z]) (key z) hzs_sorted hctx2 hz_ge
      have e1 : (ctx ++ [z]).length + 1 = ctx.length + 1 + 1 := by simp
      have e2 : (ctx ++ [z]).countP (fun y => decide (key z < key y)) =
          ctx.countP (fun y => decide (key z < key y)) := by
        simp [List.countP_append, List.countP_cons]
      rw [e1, e2] at htail
      rw [htail]
      have e3 : (ctx ++ [z]) ++ zs = ctx ++ z :: zs := by
        simp [List.append_assoc]
      rw [e3]
      have e4 : (ctx ++ z :: zs).countP (fun y => decide (key z < key y)) =
          ctx.countP (fun y => decide (key z < key y)) := by
        rw [List.countP_append, hcnt_tail]
        omega
      rw [List.map_cons, e4]
    · have hlt : key z < p := lt_of_le_of_ne hz_le_p hc
      simp only [assignRanksGo]
      rw [if_neg (by simpa using hc)]
      have hctx_all : ctx.countP (fun y => decide (key z < key y)) = ctx.length := by
        rw [List.countP_eq_length]
        intro a ha
        simp only [decide_eq_true_eq]
        exact lt_of_lt_of_le hlt (hctx a ha)
      have hctx2 : ∀ a ∈ ctx ++ [z], key z ≤ key a := by
        intro a ha
        rcases List.mem_append.mp ha with ha | ha
        · exact le_of_lt (lt_of_lt_of_le hlt (hctx a ha))
        · rcases List.mem_singleton.mp ha with rfl; exact le_rfl
      have htail := ih (ctx ++ [z]) (key z) hzs_sorted hctx2 hz_ge
      have e1 : (ctx ++ [z]).length + 1 = ctx.length + 1 + 1 := by simp
      have e2 : 1 + (ctx ++ [z]).countP (fun y => decide (key z < key y)) =
          ctx.length + 1 := by
        simp [List.countP_append, List.countP_cons, hctx_all]
        omega
      rw [e1, e2] at htail
      rw [htail]
      have e3 : (ctx ++ [z]) ++ zs = ctx ++ z :: zs := by
        simp [List.append_assoc]
      rw [e3]
      have e4 : 1 + (ctx ++ z :: zs).countP (fun y => decide (key z < key y)) =
          ctx.length + 1 := by
        rw [List.countP_append, hcnt_tail, hctx_all]
        omega
      rw [List.map_cons, e4]

theorem assignRanks_spec (key : α → ℚ) (l : List α)
    (hs : l.Pairwise (fun u v => key v ≤ key u)) :
    assignRanks key l =
      l.map (fun z => (z, 1 + l.countP (fun y => decide (key z < key y)))) := by
  cases l with
  | nil => rfl
  | cons x xs =>
    rw [List.pairwise_cons] at hs
    obtain ⟨hx, hxs⟩ := hs
    simp only [assignRanks, assignRanksGo]
    rw [if_neg (by simp)]
    have h := assignRanksGo_spec key xs [x] (key x) hxs
      (by intro a ha; rcases List.mem_singleton.mp ha with rfl; exact le_rfl) hx
    have e2 : [x].countP (fun y => decide (key x < key y)) = 0 := by
      simp [List.countP_cons]
    rw [e2] at h
    simp only [List.length_singleton] at h
    rw [h]
    have e3 : [x] ++ xs = x :: xs := rfl
    rw [e3]
    have e4 : (x :: xs).countP (fun y => decide (key x < key y)) = 0 := by
      rw [List.countP_eq_zero]
      intro a ha
      rcases List.mem_cons.mp ha with rfl | ha
      · simp
      · simp only [decide_eq_true_eq]
        exact not_lt.mpr (hx a ha)
    rw [List.map_cons, e4]

theorem roundHalfEven_le (x : ℚ) : roundHalfEven x ≤ ⌊x⌋ + 1 := by
  unfold roundHalfEven
  dsimp only
  split_ifs <;> omega

theorem le_roundHalfEven (x : ℚ) : ⌊x⌋ ≤ roundHalfEven x := by
  unfold roundHalfEven
  dsimp only
  split_ifs <;> omega

theorem roundHalfEven_mono {x y : ℚ} (h : x ≤ y) :
    roundHalfEven x ≤ roundHalfEven y := by
  rcases lt_or_eq_of_le (Int.floor_mono h) with hf | hf
  · calc roundHalfEven x ≤ ⌊x⌋ + 1 := roundHalfEven_le x
      _ ≤ ⌊y⌋ := by omega
      _ ≤ roundHalfEven y := le_roundHalfEven y
  · unfold roundHalfEven
    dsimp only
    rw [hf]
    have hfr : x - (⌊y⌋ : ℚ) ≤ y - (⌊y⌋ : ℚ) := by linarith
    split_ifs <;> first | omega | linarith

theorem round2_mono {x y : ℚ} (h : x ≤ y) : round2 x ≤ round2 y := by
  unfold round2
  rw [div_le_div_iff_of_pos_right (by norm_num : (0:ℚ) < 100)]
  exact_mod_cast roundHalfEven_mono (by linarith)

theorem posLookup_mem :
    ∀ {l : List (ℕ × String)} {st : ℕ} {v : String},
      posLookup l st = some v → (st, v) ∈ l := by
  intro l
  induction l with
  | nil => intro st v h; simp [posLookup] at h
  | cons kv rest ih =>
    intro st v h
    simp only [posLookup] at h
    split_ifs at h with hc
    · cases h
      exact List.mem_cons.mpr (Or.inl (by rw [← hc]))
    · exact List.mem_cons_of_mem _ (ih h)

theorem posLookup_isSome_of_mem :
    ∀ {l : List (ℕ × String)} {st : ℕ} {v : String},
      (st, v) ∈ l → ∃ w, posLookup l st = some w := by
  intro l
  induction l with
  | nil => intro st v h; simp at h
  | cons kv rest ih =>
    intro st v h
    by_cases hc : kv.1 = st
    · exact ⟨kv.2, by simp [posLookup, hc]⟩
    · rcases List.mem_cons.mp h with rfl | h
      · exact absurd rfl hc
      · obtain ⟨w, hw⟩ := ih h
        exact ⟨w, by simp [posLookup, hc, hw]⟩

theorem mem_qualRecsFor {roster : List ℕ} {enr : List (ℕ × ℕ)}
    {results : List Rec} {st : ℕ} {r : Rec} :
    r ∈ qualRecsFor roster enr results st ↔
      r ∈ results ∧ r.studentId ∈ roster ∧ r.subjectId ∈ subjectIdsOf roster enr ∧
        r.studentId = st ∧ 0 < r.total_score := by
  unfold qualRecsFor
  simp only [List.mem_filter, decide_eq_true_eq]
  tauto

theorem studentAverages_elim {roster : List ℕ} {enr : List (ℕ × ℕ)}
    {results : List Rec} {e : StudentAvg}
    (he : e ∈ studentAverages roster enr results) :
    e.studentId ∈ roster ∧
      mkAvg e.studentId (qualRecsFor roster enr results e.studentId) = some e := by
  obtain ⟨st, hst, hmk⟩ := List.mem_filterMap.mp he
  have hid : e.studentId = st := by
    unfold mkAvg at hmk
    split_ifs at hmk <;> cases hmk <;> rfl
  rw [hid]
  exact ⟨hst, hmk⟩

theorem mem_studentAverages_of_qual {roster : List ℕ} {enr : List (ℕ × ℕ)}
    {results : List Rec} {r : Rec}
    (hr : r ∈ results) (h1 : r.studentId ∈ roster)
    (h2 : r.subjectId ∈ subjectIdsOf roster enr) (h3 : 0 < r.total_score) :
    ∃ e ∈ studentAverages roster enr results, e.studentId = r.studentId := by
  have hmem : r ∈ qualRecsFor roster enr results r.studentId :=
    mem_qualRecsFor.mpr ⟨hr, h1, h2, rfl, h3⟩
  have hne : ¬ (qualRecsFor roster enr results r.studentId).isEmpty = true := by
    rcases hq : qualRecsFor roster enr results r.studentId with _ | ⟨a, l⟩
    · rw [hq] at hmem; simp at hmem
    · simp
  rcases ho : mkAvg r.studentId (qualRecsFor roster enr results r.studentId)
    with _ | e
  · exfalso
    unfold mkAvg at ho
    split_ifs at ho
  · have hid : e.studentId = r.studentId := by
      unfold mkAvg at ho
      split_ifs at ho <;> cases ho <;> rfl
    exact ⟨e, List.mem_filterMap.mpr ⟨r.studentId, h1, ho⟩, hid⟩

theorem marksPositions_values {avgs : List StudentAvg} :
    ∀ kv ∈ marksPositions avgs, ∃ k, 1 ≤ k ∧ kv.2 = posStr k := by
  intro kv hkv
  obtain ⟨q, hq, rfl⟩ := List.mem_map.mp hkv
  exact ⟨q.2, assignRanks_rank_pos _ _ q hq, rfl⟩

theorem marksPositions_lookup {avgs : List StudentAvg} {st : ℕ}
    (h : ∃ e ∈ avgs, e.studentId = st) :
    ∃ p k, posLookup (marksPositions avgs) st = some p ∧ 1 ≤ k ∧ p = posStr k := by
  obtain ⟨e, he, hid⟩ := h
  have hsorted : e ∈ sortDescBy (fun s => s.avg_marks) avgs :=
    ((sortDescBy_perm _ avgs).mem_iff).mpr he
  have hfst : e ∈ (assignRanks (fun s => s.avg_marks)
      (sortDescBy (fun s => s.avg_marks) avgs)).map Prod.fst := by
    rw [assignRanks_map_fst]; exact hsorted
  obtain ⟨q, hq, hqe⟩ := List.mem_map.mp hfst
  have hkv : (st, posStr q.2) ∈ marksPositions avgs := by
    refine List.mem_map.mpr ⟨q, hq, ?_⟩
    rw [hqe, hid]
  obtain ⟨w, hw⟩ := posLookup_isSome_of_mem hkv
  obtain ⟨k, hk, hwv⟩ := marksPositions_values _ (posLookup_mem hw)
  exact ⟨w, k, hw, hk, hwv⟩

theorem applyClassUpdate_not_qual {sk : String} {roster : List ℕ}
    {enr : List (ℕ × ℕ)} {results : List Rec} {r : Rec}
    (h : ¬(r.studentId ∈ roster ∧ r.subjectId ∈ subjectIdsOf roster enr ∧
      0 < r.total_score)) :
    applyClassUpdate sk roster enr results r = r := by
  unfold applyClassUpdate
  rw [if_neg h]

theorem applyClassUpdate_class_position {sk : String} {roster : List ℕ}
    {enr : List (ℕ × ℕ)} {results : List Rec} {r : Rec} {p : String}
    (hqual : r.studentId ∈ roster ∧ r.subjectId ∈ subjectIdsOf roster enr ∧
      0 < r.total_score)
    (hlook : posLookup (marksPositions (studentAverages roster enr results))
      r.studentId = some p) :
    (applyClassUpdate sk roster enr results r).class_position = p := by
  unfold applyClassUpdate
  rw [if_pos hqual]
  dsimp only
  rw [hlook]
  split_ifs with h2
  · rfl
  · rcases hgp : posLookup (gpPositions (studentAverages roster enr results))
      r.studentId with _ | q
    · rfl
    · rfl

theorem filterMap_congr_own {f g : α → Option β} :
    ∀ {l : List α}, (∀ a ∈ l, f a = g a) → l.filterMap f = l.filterMap g := by
  intro l
  induction l with
  | nil => intro _; rfl
  | cons a l ih =>
    intro h
    rw [List.filterMap_cons, List.filterMap_cons, h a (List.mem_cons_self a l),
      ih (fun b hb => h b (List.mem_cons_of_mem a hb))]

theorem qualRecsFor_nil_of_zero {roster : List ℕ} {enr : List (ℕ × ℕ)}
    {results : List Rec} {st : ℕ}
    (h : ∀ r ∈ results, r.studentId = st → r.total_score = 0) :
    qualRecsFor roster enr results st = [] := by
  rw [List.eq_nil_iff_forall_not_mem]
  intro r hr
  rw [mem_qualRecsFor] at hr
  obtain ⟨h1, _, _, h4, h5⟩ := hr
  rw [h r h1 h4] at h5
  exact lt_irrefl 0 h5

theorem qualRecsFor_filter_pos (roster : List ℕ) (enr : List (ℕ × ℕ))
    (results : List Rec) (st : ℕ) :
    qualRecsFor roster enr
        (results.filter (fun r => decide (0 < r.total_score))) st =
      qualRecsFor roster enr results st := by
  unfold qualRecsFor
  rw [List.filter_filter, List.filter_filter, List.filter_filter]
  apply List.filter_congr
  intro r _
  by_cases h : 0 < r.total_score
  · simp [h]
  · simp [h]

theorem qualRecsFor_erase_ne {roster : List ℕ} {enr : List (ℕ × ℕ)}
    {results : List Rec} {st st' : ℕ} (hne : st' ≠ st) :
    qualRecsFor roster enr
        (results.filter (fun r => decide (r.studentId ≠ st))) st' =
      qualRecsFor roster enr results st' := by
  unfold qualRecsFor
  rw [List.filter_filter, List.filter_filter, List.filter_filter]
  apply List.filter_congr
  intro r _
  by_cases h : r.studentId = st'
  · simp [h, hne]
  · simp [h]

theorem rankGroup_elim {grp : List Rec} {u : Rec} (h : u ∈ rankGroup grp) :
    ∃ z ∈ grp, ∃ k, u = { z with subject_position := posStr k } := by
  obtain ⟨q, hq, rfl⟩ := List.mem_map.mp h
  have hz : q.1 ∈ sortDescBy (fun r => r.total_score) grp := by
    have := assignRanks_map_fst (fun r => round2 r.total_score)
      (sortDescBy (fun r => r.total_score) grp)
    rw [← this]
    exact List.mem_map.mpr ⟨q, hq, rfl⟩
  exact ⟨q.1, (sortDescBy_perm _ grp).mem_iff.mp hz, q.2, rfl⟩

theorem rankGroup_intro {grp : List Rec} {z : Rec} (h : z ∈ grp) :
    ∃ u ∈ rankGroup grp, ∃ k, u = { z with subject_position := posStr k } := by
  have hz : z ∈ sortDescBy (fun r => r.total_score) grp :=
    (sortDescBy_perm _ grp).mem_iff.mpr h
  have hfst : z ∈ (assignRanks (fun r => round2 r.total_score)
      (sortDescBy (fun r => r.total_score) grp)).map Prod.fst := by
    rw [assignRanks_map_fst]; exact hz
  obtain ⟨q, hq, hqe⟩ := List.mem_map.mp hfst
  refine ⟨{ q.1 with subject_position := posStr q.2 },
    List.mem_map.mpr ⟨q, hq, rfl⟩, q.2, ?_⟩
  rw [hqe]

theorem mem_groupBySubject_elim {rs : List Rec} {g : ℕ × List Rec}
    (h : g ∈ groupBySubject rs) :
    g.2 = rs.filter (fun r => decide (r.subjectId = g.1)) := by
  obtain ⟨sid, _, rfl⟩ := List.mem_map.mp h
  rfl

theorem mem_groupBySubject_intro {rs : List Rec} {r : Rec} (h : r ∈ rs) :
    ∃ g ∈ groupBySubject rs, r ∈ g.2 := by
  refine ⟨(r.subjectId, rs.filter (fun x => decide (x.subjectId = r.subjectId))),
    List.mem_map.mpr ⟨r.subjectId, ?_, rfl⟩, ?_⟩
  · rw [List.mem_dedup]
    exact List.mem_map.mpr ⟨r, h, rfl⟩
  · rw [List.mem_filter]
    exact ⟨h, by simp⟩

theorem subjectUpdates_elim {roster : List ℕ} {enr : List (ℕ × ℕ)}
    {results : List Rec} {u : Rec} (h : u ∈ subjectUpdates roster enr results) :
    ∃ z ∈ results,
      z.studentId ∈ roster ∧ z.subjectId ∈ subjectIdsOf roster enr ∧
      ∃ k, u = { z with subject_position := posStr k } := by
  unfold subjectUpdates at h
  obtain ⟨g, hg, hu⟩ := List.mem_flatMap.mp h
  obtain ⟨z, hz, k, rfl⟩ := rankGroup_elim hu
  rw [mem_groupBySubject_elim hg] at hz
  rw [List.mem_filter] at hz
  obtain ⟨hz1, _⟩ := hz
  rw [List.mem_filter] at hz1
  obtain ⟨hz2, hz3⟩ := hz1
  simp only [decide_eq_true_eq] at hz3
  exact ⟨z, hz2, hz3.1, hz3.2, k, rfl⟩

theorem subjectUpdates_intro {roster : List ℕ} {enr : List (ℕ × ℕ)}
    {results : List Rec} {r : Rec} (hr : r ∈ results)
    (h1 : r.studentId ∈ roster) (h2 : r.subjectId ∈ subjectIdsOf roster enr) :
    ∃ u ∈ subjectUpdates roster enr results,
      ∃ k, u = { r with subject_position := posStr k } := by
  unfold subjectUpdates
  have hrs : r ∈ results.filter
      (fun x => decide (x.studentId ∈ roster ∧ x.subjectId ∈ subjectIdsOf roster enr)) := by
    rw [List.mem_filter]
    refine ⟨hr, ?_⟩
    simp only [decide_eq_true_eq]
    exact ⟨h1, h2⟩
  obtain ⟨g, hg, hmem⟩ := mem_groupBySubject_intro hrs
  obtain ⟨u, hu, k, rfl⟩ := rankGroup_intro hmem
  exact ⟨_, List.mem_flatMap.mpr ⟨g, hg, hu⟩, k, rfl⟩

theorem updateResultGo_rejected_no_rankings (sk : Option String) :
    ∀ (subs : List (ℕ × Submission)) (store : List StoredResult) (u : Bool),
      (updateResultGo sk subs store u).rejected = true →
      (updateResultGo sk subs store u).rankingsRun = false := by
  intro subs
  induction subs with
  | nil => intro store u h; simp [updateResultGo] at h
  | cons x rest ih =>
    intro store u h
    rcases x with ⟨sid, sub⟩
    simp only [updateResultGo] at h ⊢
    rcases hps : processSubject sk sub (findOrCreate store sid) with _ | ⟨res', updated⟩
    · rfl
    · rw [hps] at h
      dsimp only at h ⊢
      split_ifs at h ⊢ with hu
      · exact ih _ _ h
      · exact ih _ _ h

/-! ### The claims -/

/-- C1, counterexample: removing student 1 from a Senior section whose
current-term record carries "1st" in all three position fields blanks
`subject_position` and `class_position` but leaves `class_position_gp` as
"1st" — the claim that all three fields are set to blank is false. -/
theorem C1_counterexample :
    remove_student_from_section "Senior" [1] [(1, 10)] 1
        [⟨1, 10, 80, some 4, "1st", "1st", "1st"⟩] =
      [⟨1, 10, 80, some 4, "", "", "1st"⟩] ∧ ("1st" : String) ≠ "" := by
  constructor
  · norm_num [remove_student_from_section, update_class_positions, List.filter,
      List.isEmpty]
  · decide

/-- C1, amended: when a student who currently has a section is removed from
it, the `subject_position` and `class_position` fields on every ScoreRecord
of that student for the current session and term are set to blank, while
`class_position_gp` keeps its previous value, before Class Ranking is re-run
for the old section (which no longer touches the removed student's rows). -/
theorem C1_remove_clears_subject_and_class_position :
    ∀ (sk : String) (roster : List ℕ) (enr : List (ℕ × ℕ)) (st : ℕ)
      (results : List Rec) (r : Rec),
      st ∈ roster → r ∈ results → r.studentId = st →
      ({ r with subject_position := "", class_position := "" } : Rec) ∈
        remove_student_from_section sk roster enr st results := by
  intro sk roster enr st results r hst hr hid
  unfold remove_student_from_section
  rw [if_pos hst]
  dsimp only
  have himg : ({ r with subject_position := "", class_position := "" } : Rec) ∈
      results.map (fun x =>
        if x.studentId = st then
          { x with subject_position := "", class_position := "" }
        else x) :=
    List.mem_map.mpr ⟨r, hr, by rw [if_pos hid]⟩
  unfold update_class_positions
  split_ifs with hemp
  · exact himg
  · refine List.mem_map.mpr ⟨_, himg, ?_⟩
    apply applyClassUpdate_not_qual
    rintro ⟨hmem, -⟩
    rw [List.mem_filter] at hmem
    simp only [decide_eq_true_eq] at hmem
    exact hmem.2 hid

/-- C1, witness: the amended theorem applied to the removal of student 1. -/
theorem C1_witness :
    (1 ∈ ([1] : List ℕ)) ∧
    ((⟨1, 10, 80, some 4, "1st", "1st", "1st"⟩ : Rec) ∈
      [(⟨1, 10, 80, some 4, "1st", "1st", "1st"⟩ : Rec)]) ∧
    ((⟨1, 10, 80, some 4, "", "", "1st"⟩ : Rec) ∈
      remove_student_from_section "Senior" [1] [(1, 10)] 1
        [⟨1, 10, 80, some 4, "1st", "1st", "1st"⟩]) :=
  ⟨List.mem_cons_self _ _, List.mem_cons_self _ _,
    C1_remove_clears_subject_and_class_position "Senior" [1] [(1, 10)] 1 _ _
      (List.mem_cons_self _ _) (List.mem_cons_self _ _) rfl⟩

/-- C2, counterexample: in a class-ranking pass over one student enrolled in
subjects 10 and 20, with `total_score` 50 in subject 10 and 0 in subject 20,
the ranked `class_position` "1st" is written only to the subject-10 record;
the zero-score record keeps its blank `class_position`, so the claim that the
string is written to every ScoreRecord of the student, including records with
`total_score` 0, is false. -/
theorem C2_counterexample :
    (update_class_positions "Senior" [1] [(1, 10), (1, 20)]
        [⟨1, 10, 50, some (5/2), "", "", ""⟩, ⟨1, 20, 0, some 1, "", "", ""⟩]).map
      (fun r => r.class_position) = ["1st", ""] ∧ ("" : String) ≠ "1st" := by
  constructor
  · norm_num [update_class_positions, applyClassUpdate, studentAverages, mkAvg,
      qualRecsFor, marksPositions, gpPositions, posLookup, assignRanks,
      assignRanksGo, sortDescBy, insertDesc, round2, roundHalfEven, posStr,
      ordinalSuffix, subjectIdsOf, List.dedup, List.pwFilter, List.filter,
      List.filterMap, List.isEmpty]
    decide
  · decide

/-- C2, amended: the `class_position` string a Class Ranking pass computes for
a student is written to exactly the student's qualifying ScoreRecords for the
(session, term) — those with `total_score > 0` in a subject of the section's
enrollment set — and is the same rank string (some `posStr k`, `k ≥ 1`)
across all of them; non-qualifying records, including those with
`total_score` 0, are left unchanged. -/
theorem C2_class_position_uniform_on_qualifying :
    ∀ (sk : String) (roster : List ℕ) (enr : List (ℕ × ℕ)) (results : List Rec)
      (r1 r2 : Rec),
      r1 ∈ results → r2 ∈ results → r1.studentId = r2.studentId →
      r1.studentId ∈ roster → r1.subjectId ∈ subjectIdsOf roster enr →
      0 < r1.total_score →
      r2.subjectId ∈ subjectIdsOf roster enr → 0 < r2.total_score →
      update_class_positions sk roster enr results =
        results.map (applyClassUpdate sk roster enr results) ∧
      ∃ k, 1 ≤ k ∧
        (applyClassUpdate sk roster enr results r1).class_position = posStr k ∧
        (applyClassUpdate sk roster enr results r2).class_position = posStr k := by
  intro sk roster enr results r1 r2 hr1 hr2 hid h1m h1s h1p h2s h2p
  have havg := mem_studentAverages_of_qual hr1 h1m h1s h1p
  obtain ⟨p, k, hlook, hk, rfl⟩ := marksPositions_lookup havg
  constructor
  · unfold update_class_positions
    rw [if_neg ?_]
    intro hh
    rw [List.isEmpty_iff] at hh
    rw [hh] at h1m
    simp at h1m
  · refine ⟨k, hk, applyClassUpdate_class_position ⟨h1m, h1s, h1p⟩ hlook, ?_⟩
    have h2m : r2.studentId ∈ roster := hid ▸ h1m
    apply applyClassUpdate_class_position ⟨h2m, h2s, h2p⟩
    rw [← hid]
    exact hlook

/-- C2, witness: the amended theorem applied to one student with positive
scores in two enrolled subjects, both records receiving the same "1st". -/
theorem C2_witness :
    ((⟨1, 10, 50, some (5/2), "", "", ""⟩ : Rec) ∈
      [(⟨1, 10, 50, some (5/2), "", "", ""⟩ : Rec), ⟨1, 20, 60, some 3, "", "", ""⟩]) ∧
    (10 ∈ subjectIdsOf [1] [(1, 10), (1, 20)]) ∧
    (update_class_positions "Senior" [1] [(1, 10), (1, 20)]
        [⟨1, 10, 50, some (5/2), "", "", ""⟩, ⟨1, 20, 60, some 3, "", "", ""⟩] =
      [⟨1, 10, 50, some (5/2), "", "", ""⟩, ⟨1, 20, 60, some 3, "", "", ""⟩].map
        (applyClassUpdate "Senior" [1] [(1, 10), (1, 20)]
          [⟨1, 10, 50, some (5/2), "", "", ""⟩, ⟨1, 20, 60, some 3, "", "", ""⟩])) ∧
    ∃ k, 1 ≤ k ∧
      (applyClassUpdate "Senior" [1] [(1, 10), (1, 20)]
          [⟨1, 10, 50, some (5/2), "", "", ""⟩, ⟨1, 20, 60, some 3, "", "", ""⟩]
          ⟨1, 10, 50, some (5/2), "", "", ""⟩).class_position = posStr k ∧
      (applyClassUpdate "Senior" [1] [(1, 10), (1, 20)]
          [⟨1, 10, 50, some (5/2), "", "", ""⟩, ⟨1, 20, 60, some 3, "", "", ""⟩]
          ⟨1, 20, 60, some 3, "", "", ""⟩).class_position = posStr k := by
  have h := C2_class_position_uniform_on_qualifying "Senior" [1] [(1, 10), (1, 20)]
    [⟨1, 10, 50, some (5/2), "", "", ""⟩, ⟨1, 20, 60, some 3, "", "", ""⟩]
    ⟨1, 10, 50, some (5/2), "", "", ""⟩ ⟨1, 20, 60, some 3, "", "", ""⟩
    (List.mem_cons_self _ _) (List.mem_cons_of_mem _ (List.mem_cons_self _ _))
    rfl (List.mem_cons_self _ _) (by decide) (by norm_num) (by decide) (by norm_num)
  exact ⟨List.mem_cons_self _ _, by decide, h.1, h.2⟩

/-- C3, counterexample: with roster {1, 2} and only student 1 enrolled in
subject 10, student 2's stray score of 90 in subject 10 is not excluded: the
subject-ranking pass ranks it "1st" (pushing the enrolled student to "2nd"),
so the claim that a roster student without an enrollment in the subject is
excluded from that subject's ranking is false. -/
theorem C3_counterexample :
    (update_subject_positions [1, 2] [(1, 10)]
        [⟨1, 10, 80, some 4, "", "", ""⟩, ⟨2, 10, 90, some 5, "", "", ""⟩]).map
      (fun r => (r.studentId, r.subject_position)) = [(1, "2nd"), (2, "1st")] ∧
    (∀ e ∈ ([(1, 10)] : List (ℕ × ℕ)), e.1 ≠ 2) := by
  constructor
  · norm_num [update_subject_positions, applyUpdates, subjectUpdates,
      groupBySubject, subjectIdsOf, rankGroup, assignRanks, assignRanksGo,
      sortDescBy, insertDesc, round2, roundHalfEven, posStr, ordinalSuffix,
      List.dedup, List.pwFilter, List.find?, List.filter, List.flatMap]
    decide
  · decide

/-- C3, amended: Subject Ranking's membership filter is section-level, not
per-student: the ranked records are exactly the records of roster students in
a subject that at least one roster student is enrolled in for the
(session, term) — a roster student's record in such a subject is ranked even
when that student has no enrollment in it. -/
theorem C3_subject_ranking_section_level_filter :
    ∀ (roster : List ℕ) (enr : List (ℕ × ℕ)) (results : List Rec),
      (∀ u ∈ subjectUpdates roster enr results,
        u.studentId ∈ roster ∧ u.subjectId ∈ subjectIdsOf roster enr) ∧
      (∀ r ∈ results, r.studentId ∈ roster →
        r.subjectId ∈ subjectIdsOf roster enr →
        ∃ u ∈ subjectUpdates roster enr results,
          ∃ k, u = { r with subject_position := posStr k }) := by
  intro roster enr results
  constructor
  · intro u hu
    obtain ⟨z, _, hz1, hz2, k, rfl⟩ := subjectUpdates_elim hu
    exact ⟨hz1, hz2⟩
  · intro r hr h1 h2
    exact subjectUpdates_intro hr h1 h2

/-- C3, witness: the amended theorem's second half applied to student 2's
stray record — it is ranked despite the missing enrollment. -/
theorem C3_witness :
    ((⟨2, 10, 90, some 5, "", "", ""⟩ : Rec) ∈
      [(⟨1, 10, 80, some 4, "", "", ""⟩ : Rec), ⟨2, 10, 90, some 5, "", "", ""⟩]) ∧
    (2 ∈ ([1, 2] : List ℕ)) ∧ (10 ∈ subjectIdsOf [1, 2] [(1, 10)]) ∧
    ∃ u ∈ subjectUpdates [1, 2] [(1, 10)]
        [⟨1, 10, 80, some 4, "", "", ""⟩, ⟨2, 10, 90, some 5, "", "", ""⟩],
      ∃ k, u = { (⟨2, 10, 90, some 5, "", "", ""⟩ : Rec) with
        subject_position := posStr k } :=
  ⟨List.mem_cons_of_mem _ (List.mem_cons_self _ _), by decide, by decide,
    (C3_subject_ranking_section_level_filter [1, 2] [(1, 10)]
        [⟨1, 10, 80, some 4, "", "", ""⟩, ⟨2, 10, 90, some 5, "", "", ""⟩]).2
      ⟨2, 10, 90, some 5, "", "", ""⟩
      (List.mem_cons_of_mem _ (List.mem_cons_self _ _)) (by decide) (by decide)⟩

/-- C4: a ScoreRecord with `total_score` 0 is excluded from its student's
average (the averages are unchanged if all non-positive records are dropped
beforehand), and a student all of whose records for the (session, term) have
`total_score` 0 contributes no `student_averages` entry (so is not part of
the denominator or the positions ranked), has all their records left
untouched by the pass, and has no influence on the other students' averages. -/
theorem C4_zero_scores_excluded :
    ∀ (roster : List ℕ) (enr : List (ℕ × ℕ)) (results : List Rec) (st : ℕ)
      (sk : String),
      st ∈ roster →
      (∀ r ∈ results, r.studentId = st → r.total_score = 0) →
      (∀ e ∈ studentAverages roster enr results, e.studentId ≠ st) ∧
      (∀ r ∈ results, r.studentId = st →
        applyClassUpdate sk roster enr results r = r) ∧
      studentAverages roster enr results =
        studentAverages roster enr
          (results.filter (fun r => decide (0 < r.total_score))) ∧
      studentAverages roster enr results =
        studentAverages roster enr
          (results.filter (fun r => decide (r.studentId ≠ st))) := by
  intro roster enr results st sk hst hzero
  refine ⟨?_, ?_, ?_, ?_⟩
  · intro e he hcontra
    obtain ⟨_, hmk⟩ := studentAverages_elim he
    rw [hcontra, qualRecsFor_nil_of_zero hzero] at hmk
    cases hmk
  · intro r hr hid
    apply applyClassUpdate_not_qual
    rintro ⟨-, -, hpos⟩
    rw [hzero r hr hid] at hpos
    exact lt_irrefl 0 hpos
  · unfold studentAverages
    apply filterMap_congr_own
    intro a _
    rw [qualRecsFor_filter_pos]
  · unfold studentAverages
    apply filterMap_congr_own
    intro a _
    by_cases ha : a = st
    · subst ha
      rw [qualRecsFor_nil_of_zero hzero, qualRecsFor_nil_of_zero]
      intro r hr hid
      rw [List.mem_filter] at hr
      simp only [decide_eq_true_eq] at hr
      exact absurd hid hr.2
    · rw [qualRecsFor_erase_ne ha]

/-- C4, witness: the theorem applied to a roster of two students where
student 2 has only a zero score. -/
theorem C4_witness :
    (2 ∈ ([1, 2] : List ℕ)) ∧
    (∀ r ∈ [(⟨1, 10, 80, some 4, "", "", ""⟩ : Rec), ⟨2, 10, 0, some 1, "", "", ""⟩],
      r.studentId = 2 → r.total_score = 0) ∧
    (∀ e ∈ studentAverages [1, 2] [(1, 10), (2, 10)]
        [⟨1, 10, 80, some 4, "", "", ""⟩, ⟨2, 10, 0, some 1, "", "", ""⟩],
      e.studentId ≠ 2) := by
  have hz : ∀ r ∈ [(⟨1, 10, 80, some 4, "", "", ""⟩ : Rec), ⟨2, 10, 0, some 1, "", "", ""⟩],
      r.studentId = 2 → r.total_score = 0 := by
    intro r hr
    rcases List.mem_cons.mp hr with rfl | hr
    · intro h; cases h
    · rcases List.mem_cons.mp hr with rfl | hr
      · intro _; rfl
      · simp at hr
  exact ⟨by decide, hz,
    (C4_zero_scores_excluded [1, 2] [(1, 10), (2, 10)]
      [⟨1, 10, 80, some 4, "", "", ""⟩, ⟨2, 10, 0, some 1, "", "", ""⟩] 2 "Senior"
      (by decide) hz).1⟩

/-- C5, counterexample: one student with two qualifying records, grade points
`4` and absent: the pass computes `avg_gp = 4 / 2 = 2` (dividing by the
number of all qualifying records), while the mean over exactly the records
where a grade point is present is `4 / 1 = 4` — the claim's formula is false. -/
theorem C5_counterexample :
    (studentAverages [1] [(1, 10), (1, 20)]
        [⟨1, 10, 80, some 4, "", "", ""⟩, ⟨1, 20, 50, none, "", "", ""⟩]).map
      (fun e => e.avg_gp) = [2] ∧
    specMeanPresentGradePoints (qualRecsFor [1] [(1, 10), (1, 20)]
        [⟨1, 10, 80, some 4, "", "", ""⟩, ⟨1, 20, 50, none, "", "", ""⟩] 1) = 4 ∧
    (2 : ℚ) ≠ 4 := by
  refine ⟨?_, ?_, by norm_num⟩
  · norm_num [studentAverages, mkAvg, qualRecsFor, subjectIdsOf, List.dedup,
      List.pwFilter, List.filter, List.filterMap, List.isEmpty]
  · norm_num [specMeanPresentGradePoints, qualRecsFor, subjectIdsOf, List.dedup,
      List.pwFilter, List.filter, List.filterMap, List.isEmpty]

/-- C5, amended: for each `student_averages` entry, `avg_gp` is the sum of
the present grade points over the qualifying records divided by the number of
all qualifying records (0.0 when no grade point is present), and `avg_marks`
is the mean of `total_score` over the qualifying records rounded to two
decimals. -/
theorem C5_average_formulas :
    ∀ (roster : List ℕ) (enr : List (ℕ × ℕ)) (results : List Rec)
      (e : StudentAvg),
      e ∈ studentAverages roster enr results →
      e.avg_gp =
        (if (qualRecsFor roster enr results e.studentId).any
            (fun r => r.grade_point.isSome) then
          ((qualRecsFor roster enr results e.studentId).filterMap
            (fun r => r.grade_point)).sum /
            ((qualRecsFor roster enr results e.studentId).length : ℚ)
        else 0) ∧
      e.avg_marks = round2
        (((qualRecsFor roster enr results e.studentId).map
          (fun r => r.total_score)).sum /
          ((qualRecsFor roster enr results e.studentId).length : ℚ)) := by
  intro roster enr results e he
  obtain ⟨-, hmk⟩ := studentAverages_elim he
  unfold mkAvg at hmk
  split_ifs at hmk with hemp hany
  · rw [Option.some.injEq] at hmk
    constructor
    · rw [← hmk]
      dsimp only
      rw [if_pos hany]
    · rw [← hmk]
  · rw [Option.some.injEq] at hmk
    constructor
    · rw [← hmk]
      dsimp only
      rw [if_neg hany]
    · rw [← hmk]

/-- C5, witness: the amended theorem applied to the mixed-grade-point input
of the counterexample. -/
theorem C5_witness :
    ((⟨1, round2 65, 2, [⟨1, 10, 80, some 4, "", "", ""⟩, ⟨1, 20, 50, none, "", "", ""⟩]⟩ : StudentAvg) ∈
      studentAverages [1] [(1, 10), (1, 20)]
        [⟨1, 10, 80, some 4, "", "", ""⟩, ⟨1, 20, 50, none, "", "", ""⟩]) ∧
    (2 : ℚ) =
      (if (qualRecsFor [1] [(1, 10), (1, 20)]
          [⟨1, 10, 80, some 4, "", "", ""⟩, ⟨1, 20, 50, none, "", "", ""⟩] 1).any
          (fun r => r.grade_point.isSome) then
        ((qualRecsFor [1] [(1, 10), (1, 20)]
          [⟨1, 10, 80, some 4, "", "", ""⟩, ⟨1, 20, 50, none, "", "", ""⟩] 1).filterMap
          (fun r => r.grade_point)).sum /
          ((qualRecsFor [1] [(1, 10), (1, 20)]
            [⟨1, 10, 80, some 4, "", "", ""⟩, ⟨1, 20, 50, none, "", "", ""⟩] 1).length : ℚ)
      else 0) := by
  have hmem : (⟨1, round2 65, 2, [⟨1, 10, 80, some 4, "", "", ""⟩, ⟨1, 20, 50, none, "", "", ""⟩]⟩ : StudentAvg) ∈
      studentAverages [1] [(1, 10), (1, 20)]
        [⟨1, 10, 80, some 4, "", "", ""⟩, ⟨1, 20, 50, none, "", "", ""⟩] := by
    norm_num [studentAverages, mkAvg, qualRecsFor, subjectIdsOf, List.dedup,
      List.pwFilter, List.filter, List.filterMap, List.isEmpty]
  have h := (C5_average_formulas [1] [(1, 10), (1, 20)]
    [⟨1, 10, 80, some 4, "", "", ""⟩, ⟨1, 20, 50, none, "", "", ""⟩] _ hmem).1
  exact ⟨hmem, h⟩

/-- C6, counterexample: a two-subject submission whose first score (ca = 5,
subject 10) is valid and whose second (ca = 11, subject 20) exceeds its 0–10
range is rejected with no ranking recomputation, but subject 10's row has
already been saved (ca updated to 5, grade recomputed) — the claim that no
ScoreRecord of the rejected submission is persisted is false. -/
theorem C6_counterexample :
    update_result_post (some "Senior")
        [(10, ⟨some 5, none, none, none⟩), (20, ⟨some 11, none, none, none⟩)]
        [⟨10, some 0, some 0, some 0, some 0, 0, "", none, ""⟩,
         ⟨20, some 0, some 0, some 0, some 0, 0, "", none, ""⟩] =
      ⟨[⟨10, some 5, some 0, some 0, some 0, 5, "F9", some 1, "Fail"⟩,
        ⟨20, some 0, some 0, some 0, some 0, 0, "", none, ""⟩], true, false⟩ ∧
    (⟨10, some 5, some 0, some 0, some 0, 5, "F9", some 1, "Fail"⟩ : StoredResult) ≠
      ⟨10, some 0, some 0, some 0, some 0, 0, "", none, ""⟩ := by
  constructor
  · norm_num [update_result_post, updateResultGo, processSubject, checkField,
      findOrCreate, saveInStore, saveStored, resultSave, seniorBands, orZero,
      List.find?, List.any, bind, Except.bind]
    decide
  · decide

/-- C6, amended: a score-entry submission containing an out-of-range raw
score field is rejected and triggers no Subject or Class Ranking
recomputation, but there is no enclosing transaction: rows saved for subjects
processed earlier in the loop remain persisted (a partial save can occur, as
the counterexample shows). -/
theorem C6_rejected_submission_runs_no_rankings :
    ∀ (sk : Option String) (subs : List (ℕ × Submission))
      (store : List StoredResult),
      (update_result_post sk subs store).rejected = true →
      (update_result_post sk subs store).rankingsRun = false := by
  intro sk subs store h
  exact updateResultGo_rejected_no_rankings sk subs store false h

/-- C6, witness: the amended theorem applied to the rejected submission of
the counterexample. -/
theorem C6_witness :
    (update_result_post (some "Senior")
        [(10, ⟨some 5, none, none, none⟩), (20, ⟨some 11, none, none, none⟩)]
        [⟨10, some 0, some 0, some 0, some 0, 0, "", none, ""⟩,
         ⟨20, some 0, some 0, some 0, some 0, 0, "", none, ""⟩]).rejected = true ∧
    (update_result_post (some "Senior")
        [(10, ⟨some 5, none, none, none⟩), (20, ⟨some 11, none, none, none⟩)]
        [⟨10, some 0, some 0, some 0, some 0, 0, "", none, ""⟩,
         ⟨20, some 0, some 0, some 0, some 0, 0, "", none, ""⟩]).rankingsRun = false := by
  have hrej : (update_result_post (some "Senior")
      [(10, ⟨some 5, none, none, none⟩), (20, ⟨some 11, none, none, none⟩)]
      [⟨10, some 0, some 0, some 0, some 0, 0, "", none, ""⟩,
       ⟨20, some 0, some 0, some 0, some 0, 0, "", none, ""⟩]).rejected = true := by
    norm_num [update_result_post, updateResultGo, processSubject, checkField,
      findOrCreate, saveInStore, saveStored, resultSave, seniorBands, orZero,
      List.find?, List.any, bind, Except.bind]
  exact ⟨hrej, C6_rejected_submission_runs_no_rankings (some "Senior") _ _ hrej⟩

theorem seniorBands_total_score (ts : ℚ) : (seniorBands ts).total_score = ts := by
  unfold seniorBands
  split_ifs <;> rfl

theorem juniorBands_total_score (ts : ℚ) : (juniorBands ts).total_score = ts := by
  unfold juniorBands
  split_ifs <;> rfl

/-- C7: for a Junior or Senior section, `Result.save` sets
`total_score = ca + test_1 + test_2 + exam` with absent inputs as 0, and the
inclusive-lower-bound band tables give: Senior total 90 → A1 / 5.0,
Senior total 89.99 → B2, Junior total 40 → E, Junior total 39.99 → F. -/
theorem C7_junior_senior_grading :
    (∀ (sk : Option String) (r : RawScores),
      sk = some "Junior" ∨ sk = some "Senior" →
      (resultSave sk r).total_score =
        orZero r.ca + orZero r.test_1 + orZero r.test_2 + orZero r.exam) ∧
    (∀ r : RawScores,
      orZero r.ca + orZero r.test_1 + orZero r.test_2 + orZero r.exam = 90 →
      (resultSave (some "Senior") r).grade = "A1" ∧
      (resultSave (some "Senior") r).grade_point = some 5) ∧
    (∀ r : RawScores,
      orZero r.ca + orZero r.test_1 + orZero r.test_2 + orZero r.exam = 8999/100 →
      (resultSave (some "Senior") r).grade = "B2") ∧
    (∀ r : RawScores,
      orZero r.ca + orZero r.test_1 + orZero r.test_2 + orZero r.exam = 40 →
      (resultSave (some "Junior") r).grade = "E") ∧
    (∀ r : RawScores,
      orZero r.ca + orZero r.test_1 + orZero r.test_2 + orZero r.exam = 3999/100 →
      (resultSave (some "Junior") r).grade = "F") := by
  have hsen : ∀ r : RawScores, resultSave (some "Senior") r =
      seniorBands (orZero r.ca + orZero r.test_1 + orZero r.test_2 + orZero r.exam) := by
    intro r
    unfold resultSave
    rw [if_neg (by decide), if_neg (by decide), if_neg (by decide)]
  have hjun : ∀ r : RawScores, resultSave (some "Junior") r =
      juniorBands (orZero r.ca + orZero r.test_1 + orZero r.test_2 + orZero r.exam) := by
    intro r
    unfold resultSave
    rw [if_neg (by decide), if_neg (by decide), if_pos rfl]
  refine ⟨?_, ?_, ?_, ?_, ?_⟩
  · intro sk r hsk
    rcases hsk with rfl | rfl
    · rw [hjun, juniorBands_total_score]
    · rw [hsen, seniorBands_total_score]
  · intro r hr
    rw [hsen, hr]
    unfold seniorBands
    rw [if_pos (by norm_num)]
    exact ⟨rfl, rfl⟩
  · intro r hr
    rw [hsen, hr]
    unfold seniorBands
    rw [if_neg (by norm_num), if_pos (by norm_num)]
  · intro r hr
    rw [hjun, hr]
    unfold juniorBands
    rw [if_neg (by norm_num), if_neg (by norm_num), if_neg (by norm_num),
      if_neg (by norm_num), if_neg (by norm_num), if_pos (by norm_num)]
  · intro r hr
    rw [hjun, hr]
    unfold juniorBands
    rw [if_neg (by norm_num), if_neg (by norm_num), if_neg (by norm_num),
      if_neg (by norm_num), if_neg (by norm_num), if_neg (by norm_num)]

/-- C7, witness: the grading theorem applied to a concrete Senior record with
ca 10, test_1 5, test_2 5, exam 70 (total 90, grade A1). -/
theorem C7_witness :
    (orZero (some 10) + orZero (some 5) + orZero (some 5) + orZero (some 70) = 90) ∧
    (resultSave (some "Senior")
        ⟨some 10, some 5, some 5, some 70, none, none, none, none, none⟩).grade = "A1" ∧
    (resultSave (some "Senior")
        ⟨some 10, some 5, some 5, some 70, none, none, none, none, none⟩).grade_point = some 5 := by
  have h90 : orZero (some (10:ℚ)) + orZero (some 5) + orZero (some 5) + orZero (some 70) = 90 := by
    norm_num [orZero]
  have h := C7_junior_senior_grading.2.1
    ⟨some 10, some 5, some 5, some 70, none, none, none, none, none⟩ h90
  exact ⟨h90, h.1, h.2⟩

/-- C8: the subject-ranking walk implements competition ranking on
`total_score` rounded to two decimals — every record's assigned rank is one
plus the number of records in its subject group whose rounded score is
strictly greater (ties share the first tied position, the next distinct score
resumes at its own 1-based position) — and for three enrolled students with
total scores [90, 90, 85] the stored `subject_position` values are
["1st", "1st", "3rd"]. -/
theorem C8_subject_ranking_is_competition_ranking :
    (∀ (grp : List Rec) (q : Rec × ℕ),
      q ∈ assignRanks (fun r => round2 r.total_score)
        (sortDescBy (fun r => r.total_score) grp) →
      q.2 = 1 + grp.countP
        (fun y => decide (round2 q.1.total_score < round2 y.total_score))) ∧
    (update_subject_positions [1, 2, 3] [(1, 7), (2, 7), (3, 7)]
        [⟨1, 7, 90, some 5, "", "", ""⟩, ⟨2, 7, 90, some 5, "", "", ""⟩,
         ⟨3, 7, 85, some (9/2), "", "", ""⟩]).map
      (fun r => r.subject_position) = ["1st", "1st", "3rd"] := by
  constructor
  · intro grp q hq
    have hs2 : (sortDescBy (fun r : Rec => r.total_score) grp).Pairwise
        (fun u v => round2 v.total_score ≤ round2 u.total_score) :=
      (sortDescBy_pairwise (fun r : Rec => r.total_score) grp).imp
        (fun h => round2_mono h)
    rw [assignRanks_spec _ _ hs2] at hq
    obtain ⟨z, hz, rfl⟩ := List.mem_map.mp hq
    dsimp only
    rw [(sortDescBy_perm (fun r : Rec => r.total_score) grp).countP_eq]
  · norm_num [update_subject_positions, applyUpdates, subjectUpdates,
      groupBySubject, subjectIdsOf, rankGroup, assignRanks, assignRanksGo,
      sortDescBy, insertDesc, round2, roundHalfEven, posStr, ordinalSuffix,
      List.dedup, List.pwFilter, List.find?, List.filter, List.flatMap]
    decide

/-- C8, witness: the competition-rank characterization applied to the
singleton group containing one record with score 90. -/
theorem C8_witness :
    (((⟨1, 7, 90, some 5, "", "", ""⟩ : Rec), 1) ∈
      assignRanks (fun r => round2 r.total_score)
        (sortDescBy (fun r => r.total_score) [⟨1, 7, 90, some 5, "", "", ""⟩])) ∧
    1 = 1 + List.countP
      (fun y => decide (round2 (90:ℚ) < round2 y.total_score))
      [(⟨1, 7, 90, some 5, "", "", ""⟩ : Rec)] := by
  have hmem : ((⟨1, 7, 90, some 5, "", "", ""⟩ : Rec), 1) ∈
      assignRanks (fun r => round2 r.total_score)
        (sortDescBy (fun r => r.total_score) [⟨1, 7, 90, some 5, "", "", ""⟩]) := by
    norm_num [assignRanks, assignRanksGo, sortDescBy, insertDesc]
    decide
  have h := C8_subject_ranking_is_competition_ranking.1
    [⟨1, 7, 90, some 5, "", "", ""⟩] _ hmem
  exact ⟨hmem, h⟩

/-- C9: the code's ordinal-suffix computation (`10 ≤ n % 100 ≤ 20 → "th"`,
then by `n % 10`) agrees with the claim's rule (`11 ≤ n % 100 ≤ 20 → "th"`,
then by `n % 10`) on every rank — they differ syntactically only at
`n % 100 = 10`, where `n % 10 = 0` makes both yield "th" — and the listed
examples hold: 11 → "11th", 21 → "21st", 12 → "12th", 1 → "1st",
102 → "102nd", 111 → "111th". -/
theorem C9_ordinal_suffix_rule :
    (∀ n : ℕ, ordinalSuffix n = specOrdinalSuffix n) ∧
    posStr 11 = "11th" ∧ posStr 21 = "21st" ∧ posStr 12 = "12th" ∧
    posStr 1 = "1st" ∧ posStr 102 = "102nd" ∧ posStr 111 = "111th" := by
  refine ⟨?_, by decide, by decide, by decide, by decide, by decide, by decide⟩
  intro n
  unfold ordinalSuffix specOrdinalSuffix
  split_ifs <;> first | rfl | omega

/-- C10: a `Result` whose student has no class (`sectionKind = none`) or
whose class's section is any string other than "Nursery", "Primary" or
"Junior" falls through to the Senior policy of `Result.save`: the
ca + test_1 + test_2 + exam sum and the Senior band table are applied. -/
theorem C10_unknown_section_graded_as_senior :
    ∀ (sk : Option String) (r : RawScores),
      sk ≠ some "Nursery" → sk ≠ some "Primary" → sk ≠ some "Junior" →
      resultSave sk r =
        seniorBands (orZero r.ca + orZero r.test_1 + orZero r.test_2 +
          orZero r.exam) := by
  intro sk r h1 h2 h3
  unfold resultSave
  rw [if_neg h1, if_neg h2, if_neg h3]

/-- C10, witness: the fall-through theorem applied to a student without a
class and to an unrecognised section string. -/
theorem C10_witness :
    ((none : Option String) ≠ some "Nursery") ∧
    resultSave none ⟨some 1, some 2, some 3, some 4, none, none, none, none, none⟩ =
      seniorBands (orZero (some 1) + orZero (some 2) + orZero (some 3) +
        orZero (some 4)) ∧
    resultSave (some "Middle") ⟨some 1, some 2, some 3, some 4, none, none, none, none, none⟩ =
      seniorBands (orZero (some 1) + orZero (some 2) + orZero (some 3) +
        orZero (some 4)) :=
  ⟨by decide,
    C10_unknown_section_graded_as_senior none _ (by decide) (by decide) (by decide),
    C10_unknown_section_graded_as_senior (some "Middle") _ (by decide) (by decide)
      (by decide)⟩
